import Mathlib

/-!
Verification development for the approval-gated task dispatch engine
(`src/preprocessing.py`, `src/approval.py`, `src/agent.py`, `src/tools.py`).

The Python code is shallowly embedded: pure functions become Lean
functions on explicit data, the stateful `ApprovalManager` becomes
explicit state passing over an association-list store, interactive and
network collaborators (the human approval prompt, the OpenAI call, the
tool implementations) become function-valued parameters of the
embedding, and Python exceptions become `Except` errors.

Strings are modelled at the ASCII level: `unicodedata.normalize('NFKD', s)`
is the identity on ASCII strings, so the embedding of `clean_text` omits
that step; every concrete input appearing below is ASCII, where the
omission is exact.
-/

/-! ## Python character classes (ASCII fragment)

`\s`, `\w` and `str.isdigit` as they behave on ASCII text. -/

/-- Python regex `\s` on ASCII: space, tab, newline, carriage return,
vertical tab, form feed. -/
def pyIsSpace (c : Char) : Bool :=
  c = ' ' || c = '\t' || c = '\n' || c = '\r' || c = Char.ofNat 11 || c = Char.ofNat 12

/-- Python regex `\w` on ASCII: alphanumeric or underscore. -/
def pyIsWordChar (c : Char) : Bool :=
  c.isAlphanum || c = '_'

/-- Python `str.isdigit` on ASCII strings: nonempty and all decimal digits. -/
def pyIsDigit (s : String) : Bool :=
  !s.data.isEmpty && s.data.all Char.isDigit

/-- Python `int(s)` for a string of decimal digits. -/
def pyStrToInt (s : String) : Int :=
  Int.ofNat (s.data.foldl (fun n c => 10 * n + (c.toNat - '0'.toNat)) 0)

/-! ## clean_text (src/preprocessing.py lines 8-27)

`clean_text` = NFKD normalize (identity on ASCII), collapse each
whitespace run to a single space (`re.sub(r'\s+', ' ', text)`), delete
every character outside `[\w\s.,!?-]` (`re.sub(r'[^\w\s.,!?-]', '', text)`),
then `str.strip()`. -/

/-- Embeds `re.sub(r'\s+', ' ', text)`: the boolean argument records whether the
previous character was whitespace (i.e. we are inside a run already
replaced by one space). -/
def collapseWsAux : Bool → List Char → List Char
  | _, [] => []
  | prevSpace, c :: rest =>
    if pyIsSpace c then
      (if prevSpace then [] else [' ']) ++ collapseWsAux true rest
    else
      c :: collapseWsAux false rest

/-- Replace each maximal whitespace run with a single space. -/
def collapseWs (l : List Char) : List Char :=
  collapseWsAux false l

/-- Characters kept by `re.sub(r'[^\w\s.,!?-]', '', text)`. -/
def keptByCleanText (c : Char) : Bool :=
  pyIsWordChar c || pyIsSpace c || c = '.' || c = ',' || c = '!' || c = '?' || c = '-'

/-- Python `str.strip()`: drop leading and trailing whitespace. -/
def pyStripL (l : List Char) : List Char :=
  ((l.dropWhile pyIsSpace).reverse.dropWhile pyIsSpace).reverse

/-- Embeds `clean_text` on the character list. -/
def cleanTextL (l : List Char) : List Char :=
  pyStripL (List.filter keptByCleanText (collapseWs l))

/-- Embeds `clean_text` (src/preprocessing.py line 8). -/
def clean_text (s : String) : String :=
  ⟨cleanTextL s.data⟩

/-! ## JSON-like parameter values

Python's JSON-like values: strings, ints, booleans, None, lists and
(insertion-ordered) dicts. The three types are a mutual inductive so
that all recursion over them is structural and kernel-reducible. -/

mutual
inductive JsonValue where
  | str (s : String)
  | int (n : Int)
  | bool (b : Bool)
  | null
  | arr (elems : JsonArr)
  | obj (fields : JsonObj)

inductive JsonArr where
  | nil
  | cons (v : JsonValue) (rest : JsonArr)

inductive JsonObj where
  | nil
  | cons (k : String) (v : JsonValue) (rest : JsonObj)
end

/-- Dict lookup `d.get(k)` / `k in d` on a JSON object (first binding wins,
as in a Python dict, which has no duplicate keys). -/
def JsonObj.get? : JsonObj → String → Option JsonValue
  | .nil, _ => none
  | .cons k' v rest, k => if k' = k then some v else rest.get? k

/-! ## validate_parameters (src/preprocessing.py lines 47-80)

Recursive descent over a parameter dict: all-digit strings are coerced
with `int`, other strings go through `clean_text`, nested dicts recurse,
lists map (dict elements recurse, string elements are cleaned, anything
else — including nested lists — passes through unchanged), and any other
value passes through unchanged. -/

mutual
/-- Embeds `validate_parameters` (src/preprocessing.py line 47): iterates the
dict's items, transforming each value. -/
def validate_parameters : JsonObj → JsonObj
  | .nil => .nil
  | .cons k v rest => .cons k (validateDictValue v) (validate_parameters rest)

/-- The per-value branches of the loop body of `validate_parameters`. -/
def validateDictValue : JsonValue → JsonValue
  | .str s => if pyIsDigit s then .int (pyStrToInt s) else .str (clean_text s)
  | .obj d => .obj (validate_parameters d)
  | .arr l => .arr (validateArrElems l)
  | v => v

/-- The list comprehension inside `validate_parameters`: dict elements
recurse, string elements are cleaned, all other elements (numbers,
booleans, None, nested lists) pass through unchanged. -/
def validateArrElems : JsonArr → JsonArr
  | .nil => .nil
  | .cons (.obj d) rest => .cons (.obj (validate_parameters d)) (validateArrElems rest)
  | .cons (.str s) rest => .cons (.str (clean_text s)) (validateArrElems rest)
  | .cons v rest => .cons v (validateArrElems rest)
end

/-! ## preprocess_single_text (src/preprocessing.py lines 119-147)

Pipeline: `clean_text`, lowercase, remove URLs
(`re.sub(r'http\S+|www.\S+', '', text)`), remove e-mail addresses
(`re.sub(r'\S+@\S+', '', text)`), remove bare integers not followed by a
unit word (`re.sub(r'\b\d+\b(?!\s*(?:year|month|day|dollar|percent|%)s?\b)', '', text)`),
collapse whitespace (`' '.join(text.split())`), strip.

Each `re.sub` is embedded as a left-to-right scanner with Python's
leftmost match and greedy `\S+` semantics. -/

/-- Scanner for `re.sub(r'http\S+|www.\S+', '', text)`. The boolean is
true while the scanner is inside the `\S+` tail of a match, whose
characters are dropped up to the next whitespace. At each position the
alternation tries `http\S+` first (the `.` of `www.` is regex "any
character but newline", which may itself be a space). -/
def removeUrlsAux : Bool → List Char → List Char
  | _, [] => []
  | true, c :: rest =>
    if pyIsSpace c then c :: removeUrlsAux false rest else removeUrlsAux true rest
  | false, 'h' :: 't' :: 't' :: 'p' :: c :: rest =>
    if pyIsSpace c then 'h' :: removeUrlsAux false ('t' :: 't' :: 'p' :: c :: rest)
    else removeUrlsAux true rest
  | false, 'w' :: 'w' :: 'w' :: x :: c :: rest =>
    if x ≠ '\n' && !pyIsSpace c then removeUrlsAux true rest
    else 'w' :: removeUrlsAux false ('w' :: 'w' :: x :: c :: rest)
  | false, c :: rest => c :: removeUrlsAux false rest

def removeUrls (l : List Char) : List Char :=
  removeUrlsAux false l

/-- A match of `\S+@\S+` lies inside one maximal non-whitespace token and
— by leftmostness and greediness — always covers the whole token; it
exists exactly when the token has an `@` at an internal position (at
least one token character before it and one after it). -/
def hasInternalAt (tok : List Char) : Bool :=
  ((tok.drop 1).dropLast).contains '@'

/-- Emit a completed token (accumulated in reverse) unless it matched
`\S+@\S+`. -/
def emitEmailTok (tokRev : List Char) (tail : List Char) : List Char :=
  if hasInternalAt tokRev.reverse then tail else tokRev.reverse ++ tail

/-- Scanner for `re.sub(r'\S+@\S+', '', text)`: accumulate each maximal
non-whitespace token and drop it when it contains an internal `@`. -/
def removeEmailsAux (tokRev : List Char) : List Char → List Char
  | [] => emitEmailTok tokRev []
  | c :: rest =>
    if pyIsSpace c then emitEmailTok tokRev (c :: removeEmailsAux [] rest)
    else removeEmailsAux (c :: tokRev) rest

def removeEmails (l : List Char) : List Char :=
  removeEmailsAux [] l

/-- Word boundary `\b` between a previous character and the rest of the
text: holds when exactly one side is a word character (end of text
counts as a non-word side). -/
def boundaryOk (p : Char) (n : List Char) : Bool :=
  match n with
  | [] => pyIsWordChar p
  | c :: _ => pyIsWordChar p != pyIsWordChar c

/-- Handles `s?\b` after a unit word whose last character is `last`: the greedy
optional `s` may or may not be taken, the lookahead's inner pattern
matches if either variant reaches a boundary. -/
def sOptBoundary (last : Char) (after : List Char) : Bool :=
  match after with
  | 's' :: after2 => boundaryOk 's' after2 || boundaryOk last ('s' :: after2)
  | _ => boundaryOk last after

/-- One alternative `u` of `(?:year|month|day|dollar|percent|%)s?\b`. -/
def unitAlt (u : String) (l : List Char) : Bool :=
  u.data.isPrefixOf l && sOptBoundary (u.data.getLastD ' ') (l.drop u.data.length)

/-- The unit alternation of the lookahead. -/
def unitThenBoundary (l : List Char) : Bool :=
  unitAlt "year" l || unitAlt "month" l || unitAlt "day" l ||
    unitAlt "dollar" l || unitAlt "percent" l || unitAlt "%" l

/-- The lookahead body `\s*(?:year|month|day|dollar|percent|%)s?\b`: the
unit words start with non-whitespace characters, so `\s*` must consume
the entire whitespace run for the inner pattern to match. -/
def lookaheadUnit (l : List Char) : Bool :=
  unitThenBoundary (l.dropWhile pyIsSpace)

mutual
/-- Scanner for
`re.sub(r'\b\d+\b(?!\s*(?:year|month|day|dollar|percent|%)s?\b)', '', text)`.
The boolean records whether the previous character was a word character
(for the leading `\b`); a digit run can only start a match at a
non-word/word boundary. -/
def removeBareNumsAux (prevWord : Bool) : List Char → List Char
  | [] => []
  | c :: rest =>
    if c.isDigit && !prevWord then removeBareNumsDigits [c] rest
    else c :: removeBareNumsAux (pyIsWordChar c) rest

/-- Consume a maximal digit run (accumulated in reverse); at its end the
run is removed when the trailing `\b` holds (the next character is not a
word character) and the negative lookahead succeeds (no unit word
follows). Digits running to the end of the text are always removed. A
run whose trailing `\b` or lookahead blocks the match is emitted, and no
match can start inside it since every inner position is preceded by a
digit. -/
def removeBareNumsDigits (dsRev : List Char) : List Char → List Char
  | [] => []
  | c :: rest =>
    if c.isDigit then removeBareNumsDigits (c :: dsRev) rest
    else
      (if pyIsWordChar c || lookaheadUnit (c :: rest) then dsRev.reverse else []) ++
        (c :: removeBareNumsAux (pyIsWordChar c) rest)
end

def removeBareNums (l : List Char) : List Char :=
  removeBareNumsAux false l

/-- Python `str.split()` with no argument: split on whitespace runs,
dropping empty pieces. -/
def pySplitAux (tokRev : List Char) : List Char → List (List Char)
  | [] => if tokRev.isEmpty then [] else [tokRev.reverse]
  | c :: rest =>
    if pyIsSpace c then
      (if tokRev.isEmpty then [] else [tokRev.reverse]) ++ pySplitAux [] rest
    else pySplitAux (c :: tokRev) rest

def pySplit (l : List Char) : List (List Char) :=
  pySplitAux [] l

/-- Embeds `' '.join(text.split())`. -/
def joinWords (l : List Char) : List Char :=
  List.intercalate [' '] (pySplit l)

/-- Python `str.lower()` (ASCII). -/
def pyLower (l : List Char) : List Char :=
  l.map Char.toLower

/-- Embeds `preprocess_single_text` (src/preprocessing.py line 119). -/
def preprocess_single_text (s : String) : String :=
  ⟨pyStripL (joinWords (removeBareNums (removeEmails (removeUrls (pyLower (cleanTextL s.data))))))⟩

/-! ## Approval module (src/approval.py)

`ApprovalManager` holds a tool configuration and a dict of approval
requests keyed by tool name. Python exceptions become `Except PyErr`;
the interactive `get_user_approval` prompt becomes a function-valued
parameter giving the human's yes/no answer for a request; the mutation
`request.status = ...` becomes an update of the stored entry (the dict
stores the same object the caller holds, so the returned request carries
the updated status). -/

/-- A Python exception escaping the embedded code: `ValueError(msg)`,
`KeyError(key)`, or an exception raised by an external collaborator. -/
inductive PyErr where
  | valueError (msg : String)
  | keyError (key : String)
  | external (msg : String)
deriving DecidableEq, Repr

/-- Approval status enum (src/approval.py lines 10-14). -/
inductive ApprovalStatus where
  | pending
  | approved
  | rejected
deriving DecidableEq, Repr

/-- Embeds the `ApprovalRequest` dataclass (src/approval.py lines 16-22). -/
structure ApprovalRequest where
  tool_name : String
  params : JsonObj
  description : String
  status : ApprovalStatus

/-- One tool's entry in `config/tool_config.json`, as the code reads it:
`approval_required` via `.get` with default `False` (hence `Option`),
`params` via `.get` with default `{}`, `description` via `[...]`
(assumed present, as in every configuration the code ships with). -/
structure ToolSpec where
  approval_required : Option Bool
  params : List (String × String)
  description : String

/-- The `tools` mapping of the tool configuration file. -/
abbrev ToolConfig := List (String × ToolSpec)

/-- Association-list lookup, mirroring Python `dict.get` (a Python dict
has no duplicate keys; the embedding reads the first binding). -/
def alGet? {α : Type} : List (String × α) → String → Option α
  | [], _ => none
  | (k', v) :: rest, k => if k' = k then some v else alGet? rest k

/-- Association-list update `d[k] = v`, mirroring a Python dict
assignment: replace the existing binding in place, or append. -/
def alSet {α : Type} : List (String × α) → String → α → List (String × α)
  | [], k, v => [(k, v)]
  | (k', v') :: rest, k, v =>
    if k' = k then (k, v) :: rest else (k', v') :: alSet rest k v

/-- Embeds the `ApprovalManager` state: the loaded tool configuration and the
`pending_approvals` dict (src/approval.py lines 24-30). -/
structure ApprovalManager where
  tool_config : ToolConfig
  pending_approvals : List (String × ApprovalRequest)

/-- Embeds `ApprovalManager.is_approval_required` (src/approval.py lines 37-42). -/
def is_approval_required (m : ApprovalManager) (tool_name : String) : Except PyErr Bool :=
  match alGet? m.tool_config tool_name with
  | none => .error (.valueError ("Tool " ++ tool_name ++ " not found in configuration"))
  | some info => .ok (info.approval_required.getD false)

/-- One step of the type check in `validate_params`: `if param_type ==
"string" and not isinstance(v, str): return False; elif param_type ==
"integer" and not isinstance(v, int): return False`. Python's `bool` is
a subclass of `int`, so `isinstance(True, int)` is true and a boolean
passes the `"integer"` check; any type tag other than `"string"` and
`"integer"` accepts every value. -/
def param_type_ok (param_type : String) (v : JsonValue) : Bool :=
  if param_type = "string" then
    match v with
    | .str _ => true
    | _ => false
  else if param_type = "integer" then
    match v with
    | .int _ => true
    | .bool _ => true
    | _ => false
  else true

/-- The loop of `validate_params` over `expected_params.items()`:
returns false as soon as a declared parameter is missing or mistyped. -/
def check_expected_params (expected : List (String × String)) (ps : JsonObj) : Bool :=
  match expected with
  | [] => true
  | (name, ty) :: rest =>
    match ps.get? name with
    | none => false
    | some v => if param_type_ok ty v then check_expected_params rest ps else false

/-- Embeds `ApprovalManager.validate_params` (src/approval.py lines 44-72). -/
def validate_params (m : ApprovalManager) (tool_name : String) (ps : JsonObj) :
    Except PyErr Bool :=
  match alGet? m.tool_config tool_name with
  | none => .error (.valueError ("Tool " ++ tool_name ++ " not found in configuration"))
  | some info => .ok (check_expected_params info.params ps)

/-- Embeds `ApprovalManager.approve_request` (src/approval.py lines 129-134):
looks the request up by tool name and sets its status, raising only when
no request is stored under that key. There is no check that the request
is still pending. -/
def approve_request (m : ApprovalManager) (tool_name : String) :
    Except PyErr ApprovalManager :=
  match alGet? m.pending_approvals tool_name with
  | none => .error (.valueError ("No pending approval for tool " ++ tool_name))
  | some req =>
    .ok { m with
      pending_approvals :=
        alSet m.pending_approvals tool_name { req with status := .approved } }

/-- Embeds `ApprovalManager.reject_request` (src/approval.py lines 136-141). -/
def reject_request (m : ApprovalManager) (tool_name : String) :
    Except PyErr ApprovalManager :=
  match alGet? m.pending_approvals tool_name with
  | none => .error (.valueError ("No pending approval for tool " ++ tool_name))
  | some req =>
    .ok { m with
      pending_approvals :=
        alSet m.pending_approvals tool_name { req with status := .rejected } }

/-- Embeds `ApprovalManager.request_approval` (src/approval.py lines 94-127).
`user_approval` embeds the interactive `get_user_approval` prompt (the
human's eventual y/n answer for the presented request). The Python
method stores the request in `pending_approvals[tool_name]` (overwriting
any previous request for the same tool), obtains the decision, mutates
the stored object through `approve_request`/`reject_request`, and
returns that same object — so the returned request carries the decided
status. -/
def request_approval (user_approval : ApprovalRequest → Bool) (m : ApprovalManager)
    (tool_name : String) (ps : JsonObj) :
    Except PyErr (ApprovalManager × ApprovalRequest) :=
  match alGet? m.tool_config tool_name with
  | none => .error (.valueError ("Tool " ++ tool_name ++ " not found in configuration"))
  | some info =>
    match validate_params m tool_name ps with
    | .error e => .error e
    | .ok false => .error (.valueError ("Invalid parameters for tool " ++ tool_name))
    | .ok true =>
      let req : ApprovalRequest :=
        { tool_name := tool_name, params := ps, description := info.description,
          status := .pending }
      let m1 : ApprovalManager :=
        { m with pending_approvals := alSet m.pending_approvals tool_name req }
      if user_approval req then
        match approve_request m1 tool_name with
        | .error e => .error e
        | .ok m2 => .ok (m2, { req with status := .approved })
      else
        match reject_request m1 tool_name with
        | .error e => .error e
        | .ok m2 => .ok (m2, { req with status := .rejected })

/-- Embeds `ApprovalManager.get_request_status` (src/approval.py lines 143-146). -/
def get_request_status (m : ApprovalManager) (tool_name : String) :
    Option ApprovalStatus :=
  (alGet? m.pending_approvals tool_name).map (·.status)

/-! ## Tool invocation gate (src/approval.py lines 148-177)

`call_tool_with_approval` builds a fresh `ApprovalManager` from the
configuration file, consults the approval gate, and then executes the
tool inside a `try`/`except` that converts any exception into an error
envelope. The two concrete collaborators `scrape_website` and
`fetch_calendar_events` (src/tools.py) are external I/O wrappers,
embedded as function-valued parameters that either return a value or
raise. -/

/-- The uniform result envelope: `{"status": "success", "result": ...}`
or `{"status": "error", "message": ...}`. -/
inductive Envelope where
  | success (result : JsonValue)
  | error (message : String)

/-- The external collaborators of the dispatch core: the two tool
implementations, the OpenAI completion call (given the resolved model
parameter values), and the human answering approval prompts. -/
structure AgentEnv where
  scrape_website : JsonObj → Except String JsonValue
  fetch_calendar_events : JsonObj → Except String JsonValue
  openai_complete : String → String → List JsonValue → Except String String
  user_approval : ApprovalRequest → Bool

/-- The `try` block of `call_tool_with_approval`: dispatch on the tool
name, catching every exception (a collaborator failure or the
`ValueError("Unknown tool: ...")` raised for any other name) as an error
envelope carrying `str(e)`. -/
def execute_tool (env : AgentEnv) (tool_name : String) (ps : JsonObj) : Envelope :=
  if tool_name = "scrape_website" then
    match env.scrape_website ps with
    | .ok r => .success r
    | .error e => .error e
  else if tool_name = "fetch_calendar_events" then
    match env.fetch_calendar_events ps with
    | .ok r => .success r
    | .error e => .error e
  else .error ("Unknown tool: " ++ tool_name)

/-- Embeds `call_tool_with_approval` (src/approval.py line 148). Exceptions
raised by `is_approval_required` and `request_approval` occur before the
`try` block and propagate to the caller. -/
def call_tool_with_approval (env : AgentEnv) (cfg : ToolConfig)
    (tool_name : String) (ps : JsonObj) : Except PyErr Envelope :=
  let m : ApprovalManager := { tool_config := cfg, pending_approvals := [] }
  match is_approval_required m tool_name with
  | .error e => .error e
  | .ok true =>
    match request_approval env.user_approval m tool_name ps with
    | .error e => .error e
    | .ok (_, req) =>
      if req.status = .approved then .ok (execute_tool env tool_name ps)
      else .ok (.error ("Tool " ++ tool_name ++ " was not approved"))
  | .ok false => .ok (execute_tool env tool_name ps)

/-! ## Dispatcher (src/agent.py)

`Agent.run_agents_parallel` maps `run_agent_task` over the batch with a
thread pool; `list(executor.map(...))` yields the results in input order
and re-raises the first task exception encountered in that order, so the
batch is embedded as `List.mapM` into `Except`. A task is a dict; the
fields the code reads become `Option`-valued fields whose absence is a
`KeyError` where the code subscripts (`task["tool"]`, `task["params"]`,
`task["model_name"]`, `task["prompt"]`) and falsy-defaulted where it
uses `.get` (`task.get("is_model_task")`). -/

/-- One task dict of a batch, restricted to the keys
`Agent.run_agent_task` reads. -/
structure AgentTask where
  params : Option JsonObj := none
  is_model_task : Bool := false
  model_name : Option String := none
  prompt : Option String := none
  tool : Option String := none

/-- A model task returns the completion text, a tool task the gate's
envelope. -/
inductive AgentResult where
  | text (s : String)
  | envelope (e : Envelope)

/-- The model configuration: `model_name -> parameter dict`
(`config/model_config.json`, read-only to the core). -/
abbrev ModelConfig := List (String × JsonObj)

/-- The configurations the agent loads at startup, restricted to the two
the dispatch core reads. -/
structure AgentConfig where
  model_config : ModelConfig
  tool_config : ToolConfig

/-- Embeds `Agent.choose_model` (src/agent.py lines 64-69). -/
def choose_model (models : ModelConfig) (model_name : String) : Except PyErr JsonObj :=
  match alGet? models model_name with
  | none => .error (.valueError ("Model " ++ model_name ++ " not found in configuration."))
  | some m => .ok m

/-- Subscripting `model[key]` on the chosen model dict: `KeyError` when
absent. -/
def objItem (m : JsonObj) (key : String) : Except PyErr JsonValue :=
  match m.get? key with
  | none => .error (.keyError key)
  | some v => .ok v

/-- The five keyword arguments `Agent.call_openai_model` reads from the
chosen model dict before calling the API (src/agent.py lines 74-82):
each subscript raises `KeyError` if the key is absent. -/
def resolve_model_args (m : JsonObj) : Except PyErr (List JsonValue) := do
  let t ← objItem m "temperature"
  let mt ← objItem m "max_tokens"
  let tp ← objItem m "top_p"
  let fp ← objItem m "frequency_penalty"
  let pp ← objItem m "presence_penalty"
  .ok [t, mt, tp, fp, pp]

/-- Embeds `Agent.call_openai_model` (src/agent.py lines 71-83): choose the
model, read its parameters, call the collaborator, strip the response
text. An API failure propagates as an exception. -/
def call_openai_model (env : AgentEnv) (models : ModelConfig)
    (model_name prompt : String) : Except PyErr String := do
  let m ← choose_model models model_name
  let args ← resolve_model_args m
  match env.openai_complete model_name prompt args with
  | .error e => .error (.external e)
  | .ok text => .ok ⟨pyStripL text.data⟩

/-- Embeds `Agent.run_agent_task` (src/agent.py lines 91-106): rewrite
`task['params']` through `validate_parameters` when present, then either
call the model or the tool invocation gate. Nothing here catches
exceptions: a `ValueError` from an unknown tool or model name, a
`ValueError` for invalid gated-tool parameters, a `KeyError` for a
missing task field, and any model-collaborator failure all propagate. -/
def run_agent_task (env : AgentEnv) (cfg : AgentConfig) (task : AgentTask) :
    Except PyErr AgentResult :=
  let params' := task.params.map validate_parameters
  if task.is_model_task then
    match task.model_name with
    | none => .error (.keyError "model_name")
    | some mn =>
      match task.prompt with
      | none => .error (.keyError "prompt")
      | some pr => (call_openai_model env cfg.model_config mn pr).map AgentResult.text
  else
    match task.tool with
    | none => .error (.keyError "tool")
    | some t =>
      match params' with
      | none => .error (.keyError "params")
      | some ps => (call_tool_with_approval env cfg.tool_config t ps).map AgentResult.envelope

/-- Embeds `Agent.run_agents_parallel` (src/agent.py lines 85-89): the results
arrive in input order and the first per-task exception (in input order)
aborts the whole batch. -/
def run_agents_parallel (env : AgentEnv) (cfg : AgentConfig) (tasks : List AgentTask) :
    Except PyErr (List AgentResult) :=
  tasks.mapM (run_agent_task env cfg)

/-! ## Predicates used by the theorems below -/

/-- Substring occurrence on character lists (used to show that material
from the e-mail address survives `preprocess_single_text`). -/
def containsSeq : List Char → List Char → Bool
  | [], pat => pat.isEmpty
  | c :: rest, pat => pat.isPrefixOf (c :: rest) || containsSeq rest pat

/-- A dict-level string value on which one application of
`validate_parameters` already reaches a fixed point: either it is
all-digits (coerced to an `int` once and for all), or its cleaning is
itself clean and not all-digits (so the second pass neither re-cleans it
differently nor coerces it). -/
def vpStableDictStr (s : String) : Bool :=
  pyIsDigit s ||
    (clean_text (clean_text s) == clean_text s && !pyIsDigit (clean_text s))

/-- A list-level string value stable under a second pass: its cleaning
is a fixed point of `clean_text` (list elements are never coerced). -/
def vpStableArrStr (s : String) : Bool :=
  clean_text (clean_text s) == clean_text s

mutual
/-- All string leaves reachable by the traversal of
`validate_parameters` are stable (dict level). -/
def vpStableObj : JsonObj → Bool
  | .nil => true
  | .cons _ v rest => vpStableValue v && vpStableObj rest

/-- Stability of one dict value under the traversal. -/
def vpStableValue : JsonValue → Bool
  | .str s => vpStableDictStr s
  | .obj d => vpStableObj d
  | .arr l => vpStableArr l
  | _ => true

/-- Stability of list elements: dict elements recurse, string elements
need a `clean_text` fixed point, everything else (including nested
lists, which `validate_parameters` passes through untouched) is stable. -/
def vpStableArr : JsonArr → Bool
  | .nil => true
  | .cons (.obj d) rest => vpStableObj d && vpStableArr rest
  | .cons (.str s) rest => vpStableArrStr s && vpStableArr rest
  | .cons _ rest => vpStableArr rest
end

mutual
/-- Shape comparison between an input dict and its
`validate_parameters` output: the same keys in the same order at every
object level, the same length at every array level, the same nesting,
string leaves allowed to become strings or integers, and every other
leaf (integer, boolean, null) required to be unchanged. -/
def shapeOkObj : JsonObj → JsonObj → Bool
  | .nil, .nil => true
  | .cons k1 v1 r1, .cons k2 v2 r2 => k1 == k2 && shapeOkValue v1 v2 && shapeOkObj r1 r2
  | _, _ => false

/-- Value-level shape comparison: a string leaf may stay a string or
become an integer; every other leaf must be literally unchanged;
containers must recurse with equal structure. -/
def shapeOkValue : JsonValue → JsonValue → Bool
  | .str _, .str _ => true
  | .str _, .int _ => true
  | .int a, .int b => a == b
  | .bool a, .bool b => a == b
  | .null, .null => true
  | .arr l1, .arr l2 => shapeOkArr l1 l2
  | .obj d1, .obj d2 => shapeOkObj d1 d2
  | _, _ => false

/-- Array-level shape comparison: equal lengths, elementwise. -/
def shapeOkArr : JsonArr → JsonArr → Bool
  | .nil, .nil => true
  | .cons v1 r1, .cons v2 r2 => shapeOkValue v1 v2 && shapeOkArr r1 r2
  | _, _ => false
end

/-- A model task that runs to completion: `model_name` and `prompt`
present, the model configured with its five parameter keys, and the
model collaborator answering without raising. Anything less makes
`run_agent_task` raise, because the model path has no exception
handler. -/
def model_task_ok (env : AgentEnv) (models : ModelConfig) (task : AgentTask) : Bool :=
  match task.model_name, task.prompt with
  | some mn, some pr =>
    match alGet? models mn with
    | some m =>
      match resolve_model_args m with
      | .ok args =>
        match env.openai_complete mn pr args with
        | .ok _ => true
        | .error _ => false
      | .error _ => false
    | none => false
  | _, _ => false

/-- A tool task that cannot raise outside the gate's `try` block:
`tool` and `params` keys present, the tool configured, and — when the
tool is gated — its (validated) parameters passing schema validation.
Collaborator failures and unknown tool names at the execution step are
allowed: those are caught and enveloped. -/
def tool_task_ok (cfg : ToolConfig) (task : AgentTask) : Bool :=
  match task.tool, task.params with
  | some t, some ps =>
    match alGet? cfg t with
    | some info =>
      if info.approval_required.getD false then
        check_expected_params info.params (validate_parameters ps)
      else true
    | none => false
  | _, _ => false

/-- A task whose handling stays inside the per-task boundary. -/
def task_ok (env : AgentEnv) (cfg : AgentConfig) (task : AgentTask) : Bool :=
  if task.is_model_task then model_task_ok env cfg.model_config task
  else tool_task_ok cfg.tool_config task

/-- The request as `request_approval` first builds it, before the human
decision. -/
def pendingRequest (t : String) (ps : JsonObj) (descr : String) : ApprovalRequest :=
  { tool_name := t, params := ps, description := descr, status := .pending }

/-- The same request after the human decision has been applied. -/
def decidedRequest (t : String) (ps : JsonObj) (descr : String) (ans : Bool) :
    ApprovalRequest :=
  { tool_name := t, params := ps, description := descr,
    status := if ans then .approved else .rejected }

/-! ## Concrete fixtures for witnesses and counterexamples -/

/-- A configuration with one gated tool (no declared parameters). -/
def gatedCfg : ToolConfig := [("tool_a", ⟨some true, [], "demo tool"⟩)]

/-- A configuration declaring an `"integer"` parameter on a gated tool. -/
def calcCfg : ToolConfig := [("calc", ⟨some true, [("n", "integer")], "adds numbers"⟩)]

/-- Collaborators that always answer, with an approving human. -/
def demoEnv : AgentEnv :=
  { scrape_website := fun _ => .ok .null
    fetch_calendar_events := fun _ => .ok .null
    openai_complete := fun _ _ _ => .ok "fine"
    user_approval := fun _ => true }

/-- The same collaborators with a human who answers "no". -/
def denyEnv : AgentEnv :=
  { demoEnv with user_approval := fun _ => false }

/-- An agent configuration with two ungated tools, one of which is not
handled by the execution step of `call_tool_with_approval`. -/
def c1cfg : AgentConfig :=
  { model_config := []
    tool_config := [("scrape_website", ⟨some false, [], "scrape"⟩),
                    ("mystery", ⟨some false, [], "strange"⟩)] }

/-- A tool task for the configured and implemented tool. -/
def scrapeTask : AgentTask := { tool := some "scrape_website", params := some .nil }

/-- A tool task for a configured but unimplemented tool. -/
def mysteryTask : AgentTask := { tool := some "mystery", params := some .nil }

/-- A tool task whose tool name is absent from the configuration. -/
def ghostTask : AgentTask := { tool := some "ghost", params := some .nil }

/-! ## Helper lemmas -/

theorem alGet?_alSet_same {α : Type} (l : List (String × α)) (k : String) (v : α) :
    alGet? (alSet l k v) k = some v := by
  induction l with
  | nil => simp [alSet, alGet?]
  | cons hd tl ih =>
    obtain ⟨k', v'⟩ := hd
    by_cases h : k' = k
    · simp [alSet, h, alGet?]
    · simp [alSet, h, alGet?, ih]

theorem alSet_alSet {α : Type} (l : List (String × α)) (k : String) (v v' : α) :
    alSet (alSet l k v) k v' = alSet l k v' := by
  induction l with
  | nil => simp [alSet]
  | cons hd tl ih =>
    obtain ⟨k', w⟩ := hd
    by_cases h : k' = k
    · simp [alSet, h]
    · simp [alSet, h, ih]

/-- Characterization of `request_approval` on a configured tool with
valid parameters: it stores (overwriting any previous entry for the
same tool name) and returns the request decided according to the
human's answer. -/
theorem request_approval_ok (u : ApprovalRequest → Bool) (m : ApprovalManager)
    (t : String) (ps : JsonObj) (info : ToolSpec)
    (hfind : alGet? m.tool_config t = some info)
    (hval : check_expected_params info.params ps = true) :
    request_approval u m t ps =
      .ok ({ m with pending_approvals := (alSet m.pending_approvals t
              (decidedRequest t ps info.description (u (pendingRequest t ps info.description)))) },
           decidedRequest t ps info.description (u (pendingRequest t ps info.description))) := by
  cases hu : u (pendingRequest t ps info.description) with
  | true =>
    simp only [pendingRequest] at hu
    simp [request_approval, validate_params, hfind, hval, pendingRequest, hu,
      decidedRequest, approve_request, alGet?_alSet_same, alSet_alSet]
  | false =>
    simp only [pendingRequest] at hu
    simp [request_approval, validate_params, hfind, hval, pendingRequest, hu,
      decidedRequest, reject_request, alGet?_alSet_same, alSet_alSet]

/-- The schema-validation loop succeeds when every declared parameter is
present with an accepted runtime type. -/
theorem check_expected_params_of_all (expected : List (String × String)) (ps : JsonObj)
    (h : ∀ q ty, (q, ty) ∈ expected → ∃ v, ps.get? q = some v ∧ param_type_ok ty v = true) :
    check_expected_params expected ps = true := by
  induction expected with
  | nil => rfl
  | cons hd tl ih =>
    obtain ⟨q, ty⟩ := hd
    obtain ⟨v, hv, hok⟩ := h q ty (by simp)
    simp only [check_expected_params, hv, hok, if_true]
    exact ih fun q' ty' hm => h q' ty' (by simp [hm])

/-- The `try` block converts any tool name other than the two
implemented ones into the caught `ValueError`'s envelope. -/
theorem execute_tool_unknown (env : AgentEnv) (t : String) (ps : JsonObj)
    (h1 : t ≠ "scrape_website") (h2 : t ≠ "fetch_calendar_events") :
    execute_tool env t ps = .error ("Unknown tool: " ++ t) := by
  simp [execute_tool, h1, h2]

/-- The gate returns an envelope (rather than raising) for every
configured tool whose gating, when required, passes schema validation. -/
theorem call_tool_with_approval_ok (env : AgentEnv) (cfg : ToolConfig)
    (t : String) (ps : JsonObj) (info : ToolSpec)
    (hfind : alGet? cfg t = some info)
    (hgate : info.approval_required.getD false = true →
      check_expected_params info.params ps = true) :
    ∃ e, call_tool_with_approval env cfg t ps = .ok e := by
  cases hflag : info.approval_required.getD false with
  | false =>
    exact ⟨execute_tool env t ps, by
      simp [call_tool_with_approval, is_approval_required, hfind, hflag]⟩
  | true =>
    have hval := hgate hflag
    have hreq := request_approval_ok env.user_approval
      { tool_config := cfg, pending_approvals := [] } t ps info hfind hval
    cases hu : env.user_approval (pendingRequest t ps info.description) with
    | true =>
      refine ⟨execute_tool env t ps, ?_⟩
      rw [hu] at hreq
      simp [call_tool_with_approval, is_approval_required, hfind, hflag, hreq, decidedRequest]
    | false =>
      refine ⟨.error ("Tool " ++ t ++ " was not approved"), ?_⟩
      rw [hu] at hreq
      simp [call_tool_with_approval, is_approval_required, hfind, hflag, hreq, decidedRequest]

/-! ## C2: idempotence of validate_parameters -/

mutual
/-- Second pass over a stable dict reproduces the first. -/
theorem vp_idem_obj : (d : JsonObj) → vpStableObj d = true →
    validate_parameters (validate_parameters d) = validate_parameters d
  | .nil, _ => rfl
  | .cons k v rest, h => by
    have hv : vpStableValue v = true := by
      have h' := h; simp [vpStableObj, Bool.and_eq_true] at h'; exact h'.1
    have hrest : vpStableObj rest = true := by
      have h' := h; simp [vpStableObj, Bool.and_eq_true] at h'; exact h'.2
    simp [validate_parameters, vp_idem_value v hv, vp_idem_obj rest hrest]

/-- Second pass over a stable dict value reproduces the first. -/
theorem vp_idem_value : (v : JsonValue) → vpStableValue v = true →
    validateDictValue (validateDictValue v) = validateDictValue v
  | .str s, h => by
    cases hd : pyIsDigit s with
    | true => simp [validateDictValue, hd]
    | false =>
      have h' : clean_text (clean_text s) = clean_text s ∧ pyIsDigit (clean_text s) = false := by
        simp [vpStableValue, vpStableDictStr, hd, Bool.and_eq_true] at h
        exact ⟨h.1, h.2⟩
      simp [validateDictValue, hd, h'.1, h'.2]
  | .int n, _ => rfl
  | .bool b, _ => rfl
  | .null, _ => rfl
  | .obj d, h => by
    have h' : vpStableObj d = true := by simpa [vpStableValue] using h
    simp [validateDictValue, vp_idem_obj d h']
  | .arr l, h => by
    have h' : vpStableArr l = true := by simpa [vpStableValue] using h
    simp [validateDictValue, vp_idem_arr l h']

/-- Second pass over stable list elements reproduces the first. -/
theorem vp_idem_arr : (l : JsonArr) → vpStableArr l = true →
    validateArrElems (validateArrElems l) = validateArrElems l
  | .nil, _ => rfl
  | .cons (.obj d) rest, h => by
    have h' := h; simp [vpStableArr, Bool.and_eq_true] at h'
    simp [validateArrElems, vp_idem_obj d h'.1, vp_idem_arr rest h'.2]
  | .cons (.str s) rest, h => by
    have h' := h; simp [vpStableArr, vpStableArrStr, Bool.and_eq_true] at h'
    simp [validateArrElems, h'.1, vp_idem_arr rest h'.2]
  | .cons (.int n) rest, h => by
    have h' := h; simp [vpStableArr] at h'
    simp [validateArrElems, vp_idem_arr rest h']
  | .cons (.bool b) rest, h => by
    have h' := h; simp [vpStableArr] at h'
    simp [validateArrElems, vp_idem_arr rest h']
  | .cons .null rest, h => by
    have h' := h; simp [vpStableArr] at h'
    simp [validateArrElems, vp_idem_arr rest h']
  | .cons (.arr inner) rest, h => by
    have h' := h; simp [vpStableArr] at h'
    simp [validateArrElems, vp_idem_arr rest h']
end

/-- C2, counterexample: `validate_parameters` is not idempotent. For
`{"k": " 3 "}` the first pass cleans the non-digit string `" 3 "` to
`"3"`, and only the second pass sees an all-digits string and coerces it
to the integer `3`, so applying the function twice differs from applying
it once. -/
theorem c2_counterexample :
    validate_parameters (validate_parameters (.cons "k" (.str " 3 ") .nil)) ≠
      validate_parameters (.cons "k" (.str " 3 ") .nil) := by
  intro h
  have h1 : validate_parameters (.cons "k" (.str " 3 ") .nil) =
      .cons "k" (.str "3") .nil := rfl
  have h2 : validate_parameters (validate_parameters (.cons "k" (.str " 3 ") .nil)) =
      .cons "k" (.int 3) .nil := rfl
  rw [h2, h1] at h
  injection h with _ hv _
  exact JsonValue.noConfusion hv

/-- C2 (amended): `validate_parameters` is idempotent on every parameter
dict whose reachable string leaves are stable — each dict-level string
is either all-digits (coerced once and for all) or cleans to a
`clean_text` fixed point that is not all-digits, and each list-level
string cleans to a `clean_text` fixed point. On such dicts the second
application changes nothing; without the stability condition idempotence
fails (`c2_counterexample`). -/
theorem c2_validate_parameters_idempotent_on_stable (d : JsonObj)
    (h : vpStableObj d = true) :
    validate_parameters (validate_parameters d) = validate_parameters d :=
  vp_idem_obj d h

/-- C2 witness: a concrete stable dict, with the stability hypothesis
evaluated and the idempotence instance concluded by the theorem. -/
theorem c2_witness :
    vpStableObj (.cons "query" (.str "hello world") (.cons "depth" (.str "7") .nil)) = true ∧
      validate_parameters (validate_parameters
          (.cons "query" (.str "hello world") (.cons "depth" (.str "7") .nil))) =
        validate_parameters (.cons "query" (.str "hello world") (.cons "depth" (.str "7") .nil)) :=
  ⟨by decide, c2_validate_parameters_idempotent_on_stable _ (by decide)⟩

/-! ## C3: validate_parameters on the documented example -/

/-- C3, counterexample: the claimed output is wrong. `clean_text`
deletes every character outside `[\w\s.,!?-]`, so the URL's `:` and the
two `/` are stripped and `"http://example.com"` does not come back
unchanged. -/
theorem c3_counterexample :
    validate_parameters
        (.cons "max_depth" (.str "3") (.cons "url" (.str "http://example.com") .nil)) ≠
      .cons "max_depth" (.int 3) (.cons "url" (.str "http://example.com") .nil) := by
  intro h
  have h1 : validate_parameters
      (.cons "max_depth" (.str "3") (.cons "url" (.str "http://example.com") .nil)) =
      .cons "max_depth" (.int 3) (.cons "url" (.str "httpexample.com") .nil) := rfl
  rw [h1] at h
  injection h with _ _ hrest
  injection hrest with _ hv _
  injection hv with hs
  exact absurd hs (by decide)

/-- C3 (amended): the all-digits string `"3"` is coerced to the integer
`3`, but the URL string is not returned unchanged: `clean_text` removes
its `:` and `/` characters, yielding `"httpexample.com"`. -/
theorem c3_validate_parameters_example :
    validate_parameters
        (.cons "max_depth" (.str "3") (.cons "url" (.str "http://example.com") .nil)) =
      .cons "max_depth" (.int 3) (.cons "url" (.str "httpexample.com") .nil) := rfl

/-! ## C4: preprocess_single_text on the documented example -/

/-- C4, counterexample: the e-mail address is not removed. `clean_text`
runs first and deletes `@` (not in `[\w\s.,!?-]`), so by the time the
e-mail pattern `\S+@\S+` runs there is no `@` left to match and the
fused residue `ab.com` of `a@b.com` survives into the output, which is
`"visit or ab.com, 5 percent off"`. -/
theorem c4_counterexample :
    preprocess_single_text "Visit http://x.com or a@b.com, 5 percent off" =
        "visit or ab.com, 5 percent off" ∧
      containsSeq
        (preprocess_single_text "Visit http://x.com or a@b.com, 5 percent off").data
        "ab.com".data = true :=
  ⟨rfl, rfl⟩

/-- C4 (amended): on this input the URL is removed (after cleaning,
`httpx.com` still matches `http\S+`), the unit-suffixed `5 percent` is
kept, and no other bare integer occurs; but the e-mail address is not
removed — `clean_text` strips its `@` first, so `\S+@\S+` never matches
and the residue `ab.com,` stays. The output is
`"visit or ab.com, 5 percent off"`. -/
theorem c4_preprocess_example :
    preprocess_single_text "Visit http://x.com or a@b.com, 5 percent off" =
      "visit or ab.com, 5 percent off" := rfl

/-! ## C7: validate_parameters preserves shape -/

mutual
/-- Every value is shape-compatible with itself. -/
theorem shapeOk_refl_value : (v : JsonValue) → shapeOkValue v v = true
  | .str _ => rfl
  | .int n => by simp [shapeOkValue]
  | .bool b => by simp [shapeOkValue]
  | .null => rfl
  | .arr l => by simp [shapeOkValue, shapeOk_refl_arr l]
  | .obj d => by simp [shapeOkValue, shapeOk_refl_obj d]

theorem shapeOk_refl_arr : (l : JsonArr) → shapeOkArr l l = true
  | .nil => rfl
  | .cons v rest => by simp [shapeOkArr, shapeOk_refl_value v, shapeOk_refl_arr rest]

theorem shapeOk_refl_obj : (d : JsonObj) → shapeOkObj d d = true
  | .nil => rfl
  | .cons k v rest => by simp [shapeOkObj, shapeOk_refl_value v, shapeOk_refl_obj rest]
end

/-- A string leaf's image under the dict-value transformation is a
string or an integer, both shape-compatible with the string. -/
theorem shapeOk_str_image (s : String) :
    shapeOkValue (.str s) (validateDictValue (.str s)) = true := by
  simp only [validateDictValue]
  split
  · rfl
  · rfl

mutual
/-- The output of `validate_parameters` is shape-compatible with its
input at every object level. -/
theorem vp_shape_obj : (d : JsonObj) → shapeOkObj d (validate_parameters d) = true
  | .nil => rfl
  | .cons k v rest => by
    simp [validate_parameters, shapeOkObj, vp_shape_value v, vp_shape_obj rest]

theorem vp_shape_value : (v : JsonValue) → shapeOkValue v (validateDictValue v) = true
  | .str s => shapeOk_str_image s
  | .int n => by simp [validateDictValue, shapeOkValue]
  | .bool b => by simp [validateDictValue, shapeOkValue]
  | .null => rfl
  | .arr l => by simp [validateDictValue, shapeOkValue, vp_shape_arr l]
  | .obj d => by simp [validateDictValue, shapeOkValue, vp_shape_obj d]

theorem vp_shape_arr : (l : JsonArr) → shapeOkArr l (validateArrElems l) = true
  | .nil => rfl
  | .cons (.obj d) rest => by
    simp [validateArrElems, shapeOkArr, shapeOkValue, vp_shape_obj d, vp_shape_arr rest]
  | .cons (.str s) rest => by
    simp [validateArrElems, shapeOkArr, shapeOkValue, vp_shape_arr rest]
  | .cons (.int n) rest => by
    simp [validateArrElems, shapeOkArr, shapeOk_refl_value (JsonValue.int n), vp_shape_arr rest]
  | .cons (.bool b) rest => by
    simp [validateArrElems, shapeOkArr, shapeOk_refl_value (JsonValue.bool b), vp_shape_arr rest]
  | .cons .null rest => by
    simp [validateArrElems, shapeOkArr, shapeOkValue, vp_shape_arr rest]
  | .cons (.arr inner) rest => by
    simp [validateArrElems, shapeOkArr, shapeOkValue, shapeOk_refl_arr inner, vp_shape_arr rest]
end

/-- C7: for every parameter dict `p`, `validate_parameters p` has the
same shape as `p` — the same keys in order at every object level, the
same length for every array, the same nesting — and only string leaves
are transformed (to a cleaned string or a coerced integer): every
integer, boolean and null leaf is passed through unchanged.
`shapeOkValue` permits exactly the transformation `str -> str/int` and
demands literal equality on every other leaf. -/
theorem c7_validate_parameters_preserves_shape (d : JsonObj) :
    shapeOkObj d (validate_parameters d) = true :=
  vp_shape_obj d

/-! ## C5: terminal approval statuses are not protected -/

/-- C5, counterexample: a request decided `Rejected` (terminal) is
silently overwritten. `approve_request` only checks that *some* request
is stored under the tool name — it never checks that the request is
still pending — so calling it after the request was rejected succeeds
(no error is raised) and flips the stored status to `Approved`. -/
theorem c5_counterexample :
    request_approval (fun _ => false) ⟨gatedCfg, []⟩ "tool_a" .nil =
        .ok (⟨gatedCfg, [("tool_a", ⟨"tool_a", .nil, "demo tool", .rejected⟩)]⟩,
          ⟨"tool_a", .nil, "demo tool", .rejected⟩) ∧
      approve_request ⟨gatedCfg, [("tool_a", ⟨"tool_a", .nil, "demo tool", .rejected⟩)]⟩
          "tool_a" =
        .ok ⟨gatedCfg, [("tool_a", ⟨"tool_a", .nil, "demo tool", .approved⟩)]⟩ ∧
      get_request_status ⟨gatedCfg, [("tool_a", ⟨"tool_a", .nil, "demo tool", .approved⟩)]⟩
          "tool_a" = some .approved :=
  ⟨rfl, rfl, rfl⟩

/-- C5 (amended): `approve_request` and `reject_request` fail loudly
(raise `ValueError`) only when *no* request at all is stored under the
tool name. Whenever a request is stored — pending or already terminal —
they succeed and overwrite its status unconditionally, so a terminal
status is not protected and can change silently. -/
theorem c5_approve_reject_overwrite (m : ApprovalManager) (t : String) :
    (alGet? m.pending_approvals t = none →
      approve_request m t = .error (.valueError ("No pending approval for tool " ++ t)) ∧
        reject_request m t = .error (.valueError ("No pending approval for tool " ++ t))) ∧
      ∀ req, alGet? m.pending_approvals t = some req →
        approve_request m t =
            .ok { m with pending_approvals := (alSet m.pending_approvals t { req with status := .approved }) } ∧
          get_request_status
              { m with pending_approvals := (alSet m.pending_approvals t { req with status := .approved }) } t =
            some .approved ∧
          reject_request m t =
            .ok { m with pending_approvals := (alSet m.pending_approvals t { req with status := .rejected }) } ∧
          get_request_status
              { m with pending_approvals := (alSet m.pending_approvals t { req with status := .rejected }) } t =
            some .rejected := by
  constructor
  · intro h
    exact ⟨by simp [approve_request, h], by simp [reject_request, h]⟩
  · intro req h
    refine ⟨by simp [approve_request, h], ?_, by simp [reject_request, h], ?_⟩
    · simp [get_request_status, alGet?_alSet_same]
    · simp [get_request_status, alGet?_alSet_same]

/-- C5 witness: the amended theorem applied to a manager holding an
already-rejected (terminal) request: approving succeeds and the stored
status becomes `Approved`. -/
theorem c5_witness :
    approve_request ⟨gatedCfg, [("tool_a", ⟨"tool_a", .nil, "demo tool", .rejected⟩)]⟩
        "tool_a" =
      .ok ⟨gatedCfg, [("tool_a", ⟨"tool_a", .nil, "demo tool", .approved⟩)]⟩ ∧
    get_request_status ⟨gatedCfg, [("tool_a", ⟨"tool_a", .nil, "demo tool", .approved⟩)]⟩
        "tool_a" = some .approved := by
  have h := (c5_approve_reject_overwrite
      ⟨gatedCfg, [("tool_a", ⟨"tool_a", .nil, "demo tool", .rejected⟩)]⟩ "tool_a").2
    ⟨"tool_a", .nil, "demo tool", .rejected⟩ rfl
  exact ⟨h.1, h.2.1⟩

/-! ## C6: a denied gated call returns the error envelope without
invoking the collaborator -/

/-- C6: for every gated tool call whose parameters pass validation and
where the human answers "no", `call_tool_with_approval` returns exactly
the envelope `{"status": "error", "message": "Tool <tool> was not
approved"}`. The environment `env` — in particular its two tool
collaborator functions — is universally quantified and only its
`user_approval` answer is constrained, so the result is the same
whatever the collaborators would do: in this pure embedding that is
precisely the statement that the tool collaborator is never invoked on
the denied path. -/
theorem c6_denied_gated_call (env : AgentEnv) (cfg : ToolConfig) (t : String)
    (ps : JsonObj) (info : ToolSpec)
    (hfind : alGet? cfg t = some info)
    (hflag : info.approval_required.getD false = true)
    (hval : check_expected_params info.params ps = true)
    (hno : env.user_approval (pendingRequest t ps info.description) = false) :
    call_tool_with_approval env cfg t ps =
      .ok (.error ("Tool " ++ t ++ " was not approved")) := by
  have hreq := request_approval_ok env.user_approval
    { tool_config := cfg, pending_approvals := [] } t ps info hfind hval
  rw [hno] at hreq
  simp [call_tool_with_approval, is_approval_required, hfind, hflag, hreq, decidedRequest]

/-- C6 witness: the gated demo tool, a denying human, concrete
collaborators. -/
theorem c6_witness :
    call_tool_with_approval denyEnv gatedCfg "tool_a" .nil =
      .ok (.error "Tool tool_a was not approved") :=
  c6_denied_gated_call denyEnv gatedCfg "tool_a" .nil ⟨some true, [], "demo tool"⟩
    rfl rfl rfl rfl

/-! ## C8: Python booleans pass the "integer" schema check -/

/-- C8: because Python's `bool` is a subclass of `int`,
`isinstance(True, int)` holds and `validate_params` accepts a boolean
wherever the schema declares `"integer"`: for every configured tool
whose schema declares `p : "integer"`, a parameter dict giving `p` a
boolean (with every other declared parameter present and well-typed)
validates to `True`, and consequently `request_approval` accepts it and
creates a request instead of raising `ValidationError`. -/
theorem c8_bool_passes_integer_check (m : ApprovalManager) (t p : String) (b : Bool)
    (ps : JsonObj) (info : ToolSpec) (u : ApprovalRequest → Bool)
    (hfind : alGet? m.tool_config t = some info)
    (hmem : (p, "integer") ∈ info.params)
    (hpv : ps.get? p = some (.bool b))
    (hptype : ∀ ty, (p, ty) ∈ info.params → ty = "integer")
    (hothers : ∀ q ty, (q, ty) ∈ info.params → q ≠ p →
      ∃ v, ps.get? q = some v ∧ param_type_ok ty v = true) :
    validate_params m t ps = .ok true ∧
      ∃ m' req, request_approval u m t ps = .ok (m', req) := by
  have hcheck : check_expected_params info.params ps = true := by
    apply check_expected_params_of_all
    intro q ty hm
    by_cases hq : q = p
    · subst hq
      have hty := hptype ty hm
      subst hty
      exact ⟨.bool b, hpv, rfl⟩
    · exact hothers q ty hm hq
  refine ⟨by simp [validate_params, hfind, hcheck], ?_⟩
  exact ⟨_, _, request_approval_ok u m t ps info hfind hcheck⟩

/-- C8 witness: the `calc` tool declares `n : "integer"`; supplying the
boolean `true` for `n` validates and yields a request. -/
theorem c8_witness :
    validate_params ⟨calcCfg, []⟩ "calc" (.cons "n" (.bool true) .nil) = .ok true ∧
      ∃ m' req, request_approval (fun _ => true) ⟨calcCfg, []⟩ "calc"
          (.cons "n" (.bool true) .nil) = .ok (m', req) :=
  c8_bool_passes_integer_check ⟨calcCfg, []⟩ "calc" "n" true
    (.cons "n" (.bool true) .nil) ⟨some true, [("n", "integer")], "adds numbers"⟩
    (fun _ => true) rfl (by decide)
    rfl (by intro ty hm; simp at hm; exact hm)
    (by intro q ty hm hne; simp at hm; exact absurd hm.1 hne)

/-! ## C9: approval bookkeeping is keyed by tool name -/

/-- C9: a second `request_approval` for the same tool name on the same
manager overwrites the first stored request: afterwards
`get_request_status` reports only the second decision, and the entry
stored under the tool name is the second request's record (second
parameters, second decision) — the first request's record is no longer
retrievable from the manager. -/
theorem c9_second_request_overwrites (m : ApprovalManager) (t : String) (info : ToolSpec)
    (ps1 ps2 : JsonObj) (d1 d2 : Bool)
    (hfind : alGet? m.tool_config t = some info)
    (h1 : check_expected_params info.params ps1 = true)
    (h2 : check_expected_params info.params ps2 = true) :
    ∃ m1 r1 m2 r2,
      request_approval (fun _ => d1) m t ps1 = .ok (m1, r1) ∧
        request_approval (fun _ => d2) m1 t ps2 = .ok (m2, r2) ∧
        get_request_status m2 t = some (if d2 then .approved else .rejected) ∧
        alGet? m2.pending_approvals t =
          some ⟨t, ps2, info.description, if d2 then .approved else .rejected⟩ := by
  have hA := request_approval_ok (fun _ => d1) m t ps1 info hfind h1
  have hB := request_approval_ok (fun _ => d2)
    { m with pending_approvals := (alSet m.pending_approvals t
        (decidedRequest t ps1 info.description d1)) } t ps2 info hfind h2
  refine ⟨{ m with pending_approvals := (alSet m.pending_approvals t
        (decidedRequest t ps1 info.description d1)) },
      decidedRequest t ps1 info.description d1,
      { m with pending_approvals := (alSet (alSet m.pending_approvals t
        (decidedRequest t ps1 info.description d1)) t (decidedRequest t ps2 info.description d2)) },
      decidedRequest t ps2 info.description d2, ?_, ?_, ?_, ?_⟩
  · exact hA
  · exact hB
  · simp [get_request_status, alGet?_alSet_same, decidedRequest]
  · simp [alGet?_alSet_same, decidedRequest]

/-- C9 witness: approve the first request, deny the second; the manager
afterwards reports only the second (rejected) decision. -/
theorem c9_witness :
    ∃ m1 r1 m2 r2,
      request_approval (fun _ => true) ⟨gatedCfg, []⟩ "tool_a" .nil = .ok (m1, r1) ∧
        request_approval (fun _ => false) m1 "tool_a" .nil = .ok (m2, r2) ∧
        get_request_status m2 "tool_a" = some .rejected ∧
        alGet? m2.pending_approvals "tool_a" =
          some ⟨"tool_a", .nil, "demo tool", .rejected⟩ := by
  have h := c9_second_request_overwrites ⟨gatedCfg, []⟩ "tool_a"
    ⟨some true, [], "demo tool"⟩ .nil .nil true false rfl rfl rfl
  simpa using h

/-! ## C10: unimplemented tools never return a success envelope -/

/-- C10: for every tool name other than `"scrape_website"` and
`"fetch_calendar_events"`, `call_tool_with_approval` never returns a
success envelope — every path yields either a propagated exception or an
error envelope — and whenever the execution step is actually reached
(the tool is configured and either ungated or approved with valid
parameters) the result is exactly the envelope
`{"status": "error", "message": "Unknown tool: <name>"}` from the caught
`ValueError`. -/
theorem c10_unknown_tool_never_succeeds (env : AgentEnv) (cfg : ToolConfig)
    (t : String) (ps : JsonObj)
    (h1 : t ≠ "scrape_website") (h2 : t ≠ "fetch_calendar_events") :
    (∀ r, call_tool_with_approval env cfg t ps ≠ .ok (.success r)) ∧
      ∀ info, alGet? cfg t = some info →
        (info.approval_required.getD false = false ∨
          (check_expected_params info.params ps = true ∧
            env.user_approval (pendingRequest t ps info.description) = true)) →
        call_tool_with_approval env cfg t ps = .ok (.error ("Unknown tool: " ++ t)) := by
  have hexec := execute_tool_unknown env t ps h1 h2
  constructor
  · intro r
    cases hfind : alGet? cfg t with
    | none => simp [call_tool_with_approval, is_approval_required, hfind]
    | some info =>
      cases hflag : info.approval_required.getD false with
      | false => simp [call_tool_with_approval, is_approval_required, hfind, hflag, hexec]
      | true =>
        cases hval : check_expected_params info.params ps with
        | false =>
          simp [call_tool_with_approval, is_approval_required, hfind, hflag,
            request_approval, validate_params, hval]
        | true =>
          have hreq := request_approval_ok env.user_approval
            { tool_config := cfg, pending_approvals := [] } t ps info hfind hval
          cases hu : env.user_approval (pendingRequest t ps info.description) with
          | true =>
            rw [hu] at hreq
            simp [call_tool_with_approval, is_approval_required, hfind, hflag, hreq,
              decidedRequest, hexec]
          | false =>
            rw [hu] at hreq
            simp [call_tool_with_approval, is_approval_required, hfind, hflag, hreq,
              decidedRequest]
  · intro info hfind hd
    cases hflag : info.approval_required.getD false with
    | false => simp [call_tool_with_approval, is_approval_required, hfind, hflag, hexec]
    | true =>
      rcases hd with hcontra | ⟨hval, hu⟩
      · rw [hflag] at hcontra
        exact absurd hcontra (by decide)
      · have hreq := request_approval_ok env.user_approval
          { tool_config := cfg, pending_approvals := [] } t ps info hfind hval
        rw [hu] at hreq
        simp [call_tool_with_approval, is_approval_required, hfind, hflag, hreq,
          decidedRequest, hexec]

/-! ## C1: batch processing and the per-task failure boundary -/

/-- Every task satisfying `task_ok` produces a result instead of
raising: the model path completes because the model is configured, its
parameter keys are present and the collaborator answers; the tool path
completes because the gate's only unguarded exceptions (unknown tool in
the configuration, invalid gated parameters) are excluded, and
everything else is caught inside the `try` block. -/
theorem run_agent_task_ok (env : AgentEnv) (cfg : AgentConfig) (task : AgentTask)
    (h : task_ok env cfg task = true) :
    ∃ r, run_agent_task env cfg task = .ok r := by
  unfold task_ok at h
  cases hm : task.is_model_task with
  | true =>
    rw [hm] at h
    simp only [if_true] at h
    cases hmn : task.model_name with
    | none => simp [model_task_ok, hmn] at h
    | some mn =>
      cases hpr : task.prompt with
      | none => simp [model_task_ok, hmn, hpr] at h
      | some pr =>
        cases hfind : alGet? cfg.model_config mn with
        | none => simp [model_task_ok, hmn, hpr, hfind] at h
        | some mo =>
          cases hargs : resolve_model_args mo with
          | error e => simp [model_task_ok, hmn, hpr, hfind, hargs] at h
          | ok args =>
            cases hoa : env.openai_complete mn pr args with
            | error e => simp [model_task_ok, hmn, hpr, hfind, hargs, hoa] at h
            | ok text =>
              refine ⟨.text ⟨pyStripL text.data⟩, ?_⟩
              simp [run_agent_task, hm, hmn, hpr, call_openai_model, choose_model,
                hfind, hargs, hoa, bind, Except.bind, Except.map]
  | false =>
    rw [hm] at h
    simp only [Bool.false_eq_true, if_false] at h
    cases htool : task.tool with
    | none => simp [tool_task_ok, htool] at h
    | some t =>
      cases hps : task.params with
      | none => simp [tool_task_ok, htool, hps] at h
      | some ps =>
        cases hfind : alGet? cfg.tool_config t with
        | none => simp [tool_task_ok, htool, hps, hfind] at h
        | some info =>
          have hgate : info.approval_required.getD false = true →
              check_expected_params info.params (validate_parameters ps) = true := by
            intro hflag
            simp only [tool_task_ok, htool, hps, hfind, hflag, if_true] at h
            exact h
          obtain ⟨e, he⟩ :=
            call_tool_with_approval_ok env cfg.tool_config t (validate_parameters ps)
              info hfind hgate
          exact ⟨.envelope e, by simp [run_agent_task, hm, htool, hps, he, Except.map]⟩

/-- C1, counterexample: a batch of two tool tasks yields no result list
at all. The second task names a tool absent from the configuration, so
`is_approval_required` raises `ValueError` *before* the gate's `try`
block; nothing in `run_agent_task` or `run_agents_parallel` catches it,
the whole batch aborts, and the first task's (successful) result slot is
dropped — instead of the two envelopes the claim promises. -/
theorem c1_counterexample :
    run_agents_parallel demoEnv c1cfg [scrapeTask, ghostTask] =
      .error (.valueError "Tool ghost not found in configuration") := rfl

/-- C1 (amended): a batch of N tasks yields exactly N results, one per
task in order, *provided* no task raises outside the per-task `try`
boundary: every model task must name a configured model with its five
parameter keys and a responding collaborator, and every tool task must
carry `tool`/`params` keys and name a configured tool whose (validated)
parameters pass schema validation when the tool is gated. Within that
boundary failures are enveloped per task (a denied approval, an unknown
tool name at the execution step, a tool-collaborator exception).
Without these provisos a single task's configuration or validation
error aborts the batch and drops its siblings' results
(`c1_counterexample`). -/
theorem c1_batch_yields_one_result_per_task (env : AgentEnv) (cfg : AgentConfig)
    (tasks : List AgentTask) (h : ∀ task ∈ tasks, task_ok env cfg task = true) :
    ∃ rs, run_agents_parallel env cfg tasks = .ok rs ∧ rs.length = tasks.length := by
  have key : ∀ (l : List AgentTask) (acc : List AgentResult),
      (∀ task ∈ l, task_ok env cfg task = true) →
      ∃ rs, List.mapM.loop (run_agent_task env cfg) l acc = .ok rs ∧
        rs.length = acc.length + l.length := by
    intro l
    induction l with
    | nil =>
      intro acc _
      exact ⟨acc.reverse, rfl, by simp⟩
    | cons hd tl ih =>
      intro acc hok
      obtain ⟨r, hr⟩ := run_agent_task_ok env cfg hd (hok hd (by simp))
      obtain ⟨rs, hrs, hlen⟩ := ih (r :: acc) fun t ht => hok t (List.mem_cons_of_mem _ ht)
      refine ⟨rs, ?_, ?_⟩
      · simp [List.mapM.loop, hr, bind, Except.bind, hrs]
      · simp only [List.length_cons] at hlen
        simp only [List.length_cons]
        omega
  obtain ⟨rs, hrs, hlen⟩ := key tasks [] h
  exact ⟨rs, hrs, by simpa using hlen⟩

/-- C1 witness: a two-task batch — one succeeding tool call and one
enveloped unknown-tool error — returns two results in order. -/
theorem c1_witness :
    ∃ rs, run_agents_parallel demoEnv c1cfg [scrapeTask, mysteryTask] = .ok rs ∧
      rs.length = 2 := by
  have h := c1_batch_yields_one_result_per_task demoEnv c1cfg [scrapeTask, mysteryTask]
    (by decide)
  simpa using h

/-- C10 witness: the configured, ungated tool `"mystery"` yields the
unknown-tool error envelope. -/
theorem c10_witness :
    call_tool_with_approval demoEnv
        [("mystery", ⟨some false, [], "strange"⟩)] "mystery" .nil =
      .ok (.error "Unknown tool: mystery") :=
  (c10_unknown_tool_never_succeeds demoEnv [("mystery", ⟨some false, [], "strange"⟩)]
      "mystery" .nil (by decide) (by decide)).2
    ⟨some false, [], "strange"⟩ rfl (Or.inl rfl)

